import Mathlib

/-!
Shallow embedding of the SatelliteTracker core (TLE parser, orbital
analyzer, pass predictor) and proofs about it.

Modelling conventions:
* Python floats are modelled as exact rationals (`ℚ`); every numeric literal
  occurring in the source and in the claims is an exactly representable
  decimal, so decimal comparisons agree with the binary64 ones.
  The one real-valued transcendental function (`np.arccos` in
  `calculate_coverage_radius`) is modelled over `ℝ`.
* Python exceptions are modelled by `Except PyExn` / an explicit result type;
  `PyExn.formatError` is the `ValueError` raised by the TLE line-prefix check
  (the spec's `FormatError`), `PyExn.valueError` the `ValueError` of a failed
  `int()`/`float()` conversion, `PyExn.indexError` an out-of-range single-index
  access.
* Python string primitives (`strip`, slicing, `startswith`, `int()`, `float()`)
  are given list-of-characters models below.  `float()` is modelled for finite
  decimal/exponent literals; the `"inf"`/`"nan"` spellings (never produced by
  slicing TLE text) are mapped to a failed conversion.
-/

namespace SatTrack

/-! ### Python string primitives -/

/-- Python `str.strip()` (both-ends whitespace removal). -/
def pyStrip (s : String) : String :=
  String.mk (((s.toList.dropWhile Char.isWhitespace).reverse.dropWhile
      Char.isWhitespace).reverse)

/-- Python slice `s[a:b]` for nonnegative `a`, `b` (never raises). -/
def pySlice (s : String) (a b : ℕ) : String :=
  String.mk ((s.toList.drop a).take (b - a))

/-- Python slice `s[:-2]`. -/
def pyDropLast2 (s : String) : String :=
  String.mk (s.toList.take (s.toList.length - 2))

/-- Python slice `s[-2:]`. -/
def pyLast2 (s : String) : String :=
  String.mk (s.toList.drop (s.toList.length - 2))

/-- Python `s.startswith(p)`. -/
def pyStartswith (s p : String) : Bool :=
  p.toList.isPrefixOf s.toList

/-- Numeric value of a decimal digit character. -/
def digitVal (c : Char) : ℕ := c.toNat - 48

/-- Value of a list of decimal digit characters, most significant first. -/
def digitsToNat (l : List Char) : ℕ :=
  l.foldl (fun a c => 10 * a + digitVal c) 0

/-- The digit run after an optional sign: `some value` when the list is one
or more decimal digits and nothing else. -/
def digitRun (l : List Char) : Option ℕ :=
  if l ≠ [] ∧ l.all Char.isDigit then some (digitsToNat l) else none

/-- Python `int(s)`: surrounding whitespace tolerated, optional sign,
then one or more decimal digits and nothing else. -/
def pyInt (s : String) : Option ℤ :=
  let l := (pyStrip s).toList
  if l.head? = some '+' then (digitRun l.tail).map fun n => (n : ℤ)
  else if l.head? = some '-' then (digitRun l.tail).map fun n => -(n : ℤ)
  else (digitRun l).map fun n => (n : ℤ)

/-- The syntactic decomposition of a Python float literal: sign, integer
part, fraction part with its digit count, exponent (0 when absent). -/
structure FloatParts where
  neg : Bool
  ip : ℕ
  fp : ℕ
  fpLen : ℕ
  exp : ℤ
deriving DecidableEq

/-- Exponent suffix of a Python float literal: optional sign then one or
more digits. -/
def pyFloatExpParts (r : List Char) : Option ℤ :=
  let esgn : ℤ := if r.head? = some '-' then -1 else 1
  let r := if r.head? = some '+' ∨ r.head? = some '-' then r.tail else r
  (digitRun r).map fun n => esgn * (n : ℤ)

/-- Syntactic phase of Python `float(s)`: surrounding whitespace, optional
sign, digits with optional decimal point (at least one digit in the
mantissa), optional `e`/`E` exponent. -/
def pyFloatParts (s : String) : Option FloatParts :=
  let l := (pyStrip s).toList
  let neg := decide (l.head? = some '-')
  let l := if l.head? = some '+' ∨ l.head? = some '-' then l.tail else l
  let ip := l.takeWhile Char.isDigit
  let l1 := l.dropWhile Char.isDigit
  let fp := if l1.head? = some '.' then l1.tail.takeWhile Char.isDigit else []
  let l2 := if l1.head? = some '.' then l1.tail.dropWhile Char.isDigit else l1
  if ip = [] ∧ fp = [] then none
  else if l2 = [] then
    some ⟨neg, digitsToNat ip, digitsToNat fp, fp.length, 0⟩
  else if l2.head? = some 'e' ∨ l2.head? = some 'E' then
    (pyFloatExpParts l2.tail).map fun e =>
      ⟨neg, digitsToNat ip, digitsToNat fp, fp.length, e⟩
  else none

/-- Numeric value of a decomposed float literal. -/
def partsVal (p : FloatParts) : ℚ :=
  (if p.neg then -1 else 1) * ((p.ip : ℚ) + (p.fp : ℚ) / 10 ^ p.fpLen) *
    (10 : ℚ) ^ p.exp

/-- Python `float(s)` on finite decimal literals. -/
def pyFloat (s : String) : Option ℚ :=
  (pyFloatParts s).map partsVal

/-! ### `src/utils/orbital.py` -/

/-- `EARTH_RADIUS_KM = 6371.0` (as a rational, for the pure-arithmetic
functions). -/
def EARTH_RADIUS_KM : ℚ := 6371

/-- Python exception kinds raised by the modelled code. -/
inductive PyExn where
  | formatError
  | valueError
  | indexError
deriving DecidableEq

/-- `mean_motion_to_period`: `1440 / n`, raising `ValueError` (the spec's
`DomainError`) when `n ≤ 0`. -/
def mean_motion_to_period (mean_motion_rev_day : ℚ) : Except PyExn ℚ :=
  if mean_motion_rev_day ≤ 0 then .error .valueError
  else .ok (1440 / mean_motion_rev_day)

/-- `classify_orbit`: orbit class label from average altitude. -/
def classify_orbit (altitude_km : ℚ) : String :=
  if altitude_km < 2000 then "LEO"
  else if altitude_km < 35000 then "MEO"
  else if 35000 ≤ altitude_km ∧ altitude_km ≤ 36500 then "GEO"
  else "HEO"

/-- Result of `calculate_coverage_radius`: a float value, the
`ZeroDivisionError` of a Python float division by exact zero, or the `nan`
that `np.arccos` yields on an argument outside `[-1, 1]`. -/
inductive CovResult where
  | val (x : ℝ)
  | zeroDivisionError
  | nanResult

/-- `calculate_coverage_radius`: `R_earth * arccos(R_earth / (R_earth + alt))`,
`0.0` once the ratio reaches `1`.  The division raises `ZeroDivisionError`
at `alt = -6371`, and for `alt < -6371` the ratio is `< -1` so `np.arccos`
returns `nan`. -/
noncomputable def calculate_coverage_radius (altitude_km : ℝ) : CovResult :=
  if (6371 : ℝ) + altitude_km = 0 then .zeroDivisionError
  else
    let ratio : ℝ := 6371 / (6371 + altitude_km)
    if 1 ≤ ratio then .val 0
    else if ratio < -1 then .nanResult
    else .val (6371 * Real.arccos ratio)

/-! ### `src/tracking/tle_parser.py` -/

/-- Container for parsed TLE data (`TLEData` dataclass). -/
structure TLEData where
  name : String
  norad_id : ℤ
  classification : Char
  launch_year : ℤ
  launch_number : ℤ
  piece : String
  epoch_year : ℤ
  epoch_day : ℚ
  mean_motion_dot : ℚ
  mean_motion_ddot : ℚ
  bstar : ℚ
  inclination : ℚ
  raan : ℚ
  eccentricity : ℚ
  arg_perigee : ℚ
  mean_anomaly : ℚ
  mean_motion : ℚ
  rev_number : ℤ
  line1 : String
  line2 : String
deriving DecidableEq

/-- A failed `int()`/`float()` conversion raises `ValueError`. -/
def req {α : Type} (o : Option α) : Except PyExn α :=
  match o with
  | some a => .ok a
  | none => .error .valueError

/-- A failed single-character index raises `IndexError`. -/
def reqIdx {α : Type} (o : Option α) : Except PyExn α :=
  match o with
  | some a => .ok a
  | none => .error .indexError

/-- The packed-notation block of `parse_lines`, identical for the
second-derivative and B* fields: strip the slice; blank decodes to `0.0`;
otherwise `float("0." + field[:-2]` with spaces and signs removed`)`
times `10 ** int(field[-2:])`, negated when the first character is `"-"`. -/
def decode_packed (field : String) : Option ℚ :=
  let t := pyStrip field
  if t.toList = [] then some 0
  else
    match pyFloat ("0." ++ String.mk ((pyDropLast2 t).toList.filter
            (fun c => c ≠ ' ' ∧ c ≠ '+' ∧ c ≠ '-'))),
          pyInt (pyLast2 t) with
    | some mant, some e =>
        let v := mant * (10 : ℚ) ^ e
        some (if t.toList.take 1 = ['-'] then -v else v)
    | _, _ => none

/-- `TLEParser.parse_lines`: strip the three inputs, check the `"1"`/`"2"`
line prefixes (raising the spec's `FormatError` otherwise), then slice and
parse every field from its fixed column range. -/
def parse_lines (name line1 line2 : String) : Except PyExn TLEData := do
  let name := pyStrip name
  let line1 := pyStrip line1
  let line2 := pyStrip line2
  if ¬ (pyStartswith line1 "1" ∧ pyStartswith line2 "2") then
    throw .formatError
  else
    let norad_id ← req (pyInt (pySlice line1 2 7))
    let classification ← reqIdx (line1.toList.get? 7)
    let launch_year ← req (pyInt (pySlice line1 9 11))
    let launch_number ← req (pyInt (pySlice line1 11 14))
    let piece := pyStrip (pySlice line1 14 17)
    let epoch_year ← req (pyInt (pySlice line1 18 20))
    let epoch_day ← req (pyFloat (pySlice line1 20 32))
    let mean_motion_dot ← req (pyFloat (pySlice line1 33 43))
    let mean_motion_ddot ← req (decode_packed (pySlice line1 44 52))
    let bstar ← req (decode_packed (pySlice line1 53 61))
    let inclination ← req (pyFloat (pySlice line2 8 16))
    let raan ← req (pyFloat (pySlice line2 17 25))
    let eccentricity ← req (pyFloat ("0." ++ pySlice line2 26 33))
    let arg_perigee ← req (pyFloat (pySlice line2 34 42))
    let mean_anomaly ← req (pyFloat (pySlice line2 43 51))
    let mean_motion ← req (pyFloat (pySlice line2 52 63))
    let rev_number ← req (pyInt (pySlice line2 63 68))
    return { name, norad_id, classification, launch_year, launch_number,
             piece, epoch_year, epoch_day, mean_motion_dot, mean_motion_ddot,
             bstar, inclination, raan, eccentricity, arg_perigee,
             mean_anomaly, mean_motion, rev_number, line1, line2 }

/-- The scanning loop of `TLEParser.parse_string`: while at least three
lines remain, strip the window; on a `"1"`/`"2"` prefix match decode one
satellite (a decode failure is logged and skipped) and advance by three
lines, otherwise advance by one line. -/
def scanTLE : List String → List TLEData
  | nameL :: l1 :: l2 :: rest =>
    let name := pyStrip nameL
    let line1 := pyStrip l1
    let line2 := pyStrip l2
    if pyStartswith line1 "1" ∧ pyStartswith line2 "2" then
      (match parse_lines name line1 line2 with
       | .ok t => [t]
       | .error _ => []) ++ scanTLE rest
    else
      scanTLE (l1 :: l2 :: rest)
  | _ => []
termination_by l => l.length

/-- Python `s.split("\n")`: split at every newline, keeping empty pieces
(the empty string yields one empty piece). -/
def splitNl : List Char → List (List Char)
  | [] => [[]]
  | c :: rest =>
    if c = '\n' then [] :: splitNl rest
    else
      match splitNl rest with
      | h :: t => (c :: h) :: t
      | [] => [[c]]

/-- `TLEParser.parse_string`: strip the whole text, split on newlines,
run the scanning loop. -/
def parse_string (tle_string : String) : List TLEData :=
  scanTLE ((splitNl (pyStrip tle_string).toList).map String.mk)

/-! ### `src/prediction/pass_predictor.py`

`_find_events` samples the external propagator at a fixed 1-minute step over
the half-open window `[start_time, end_time)`.  The propagator is an external
collaborator, so the time series it produces is the parameter of the model:
`samples[i]` is the topocentric elevation/azimuth at instant
`start_time + i minutes`, and the list length is the number of sampled
instants.  Event times are the minute indices of their samples. -/

/-- One propagator sample: topocentric elevation and azimuth (degrees). -/
structure Sample where
  el : ℚ
  az : ℚ
deriving DecidableEq

/-- The event dict appended by `_find_events` at a set transition. -/
structure PassEventRec where
  aos_time : ℕ
  los_time : ℕ
  max_el_time : ℕ
  max_el : ℚ
  aos_az : ℚ
  los_az : ℚ
deriving DecidableEq

/-- The loop state of `_find_events`: `in_pass`, `pass_start`,
`pass_start_az`, `max_el`, `max_el_time` (the `Option`s are Python `None`). -/
structure ScanState where
  in_pass : Bool
  pass_start : Option ℕ
  pass_start_az : Option ℚ
  max_el : ℚ
  max_el_time : Option ℕ
deriving DecidableEq

/-- State before the loop: `in_pass = False`, `pass_start = None`,
`pass_start_az = None`, `max_el = -90`, `max_el_time = None`. -/
def initScanState : ScanState :=
  { in_pass := false, pass_start := none, pass_start_az := none,
    max_el := -90, max_el_time := none }

/-- One iteration of the `_find_events` loop at sample index `i`, for a
sample after the first (`prev_el` is the previous sample's elevation):
the rise check, the set check (emitting a completed event when
`in_pass and pass_start`, and resetting `in_pass`, `pass_start`, `max_el`),
then the running-maximum update while in a pass. -/
def stepScan (thr prev_el : ℚ) (i : ℕ) (s : Sample) (st : ScanState) :
    List PassEventRec × ScanState :=
  -- rise: prev_el < min_elevation and el >= min_elevation
  let st :=
    if prev_el < thr ∧ thr ≤ s.el then
      { in_pass := true, pass_start := some i, pass_start_az := some s.az,
        max_el := s.el, max_el_time := some i }
    else st
  -- set: prev_el >= min_elevation and el < min_elevation
  let outSt :=
    if thr ≤ prev_el ∧ s.el < thr then
      ((if st.in_pass ∧ st.pass_start.isSome then
          [{ aos_time := st.pass_start.getD 0, los_time := i,
             max_el_time := st.max_el_time.getD 0, max_el := st.max_el,
             aos_az := st.pass_start_az.getD 0, los_az := s.az }]
        else []),
       { st with in_pass := false, pass_start := none, max_el := -90 })
    else ([], st)
  -- track maximum elevation during pass
  let st :=
    if outSt.2.in_pass ∧ outSt.2.max_el < s.el then
      { outSt.2 with max_el := s.el, max_el_time := some i }
    else outSt.2
  (outSt.1, st)

/-- The `_find_events` loop over the samples after the first, accumulating
emitted events in order. -/
def scanSamples (thr : ℚ) : ℚ → ℕ → ScanState → List Sample → List PassEventRec
  | _, _, _, [] => []
  | prev_el, i, st, s :: rest =>
    (stepScan thr prev_el i s st).1 ++
      scanSamples thr s.el (i + 1) (stepScan thr prev_el i s st).2 rest

/-- `_find_events`: on the first sample `prev_el is None`, so both
transition checks are skipped and the maximum-elevation update is vacuous
(`in_pass` is still `False`); the loop proper starts at the second sample. -/
def find_events (thr : ℚ) : List Sample → List PassEventRec
  | [] => []
  | s :: rest => scanSamples thr s.el 1 initScanState rest

/-- `SatellitePass` dataclass. -/
structure SatellitePass where
  satellite_name : String
  aos_time : ℕ
  los_time : ℕ
  max_elevation_time : ℕ
  max_elevation_deg : ℚ
  aos_azimuth : ℚ
  los_azimuth : ℚ
  duration_seconds : ℚ
  is_sunlit : Bool
deriving DecidableEq

/-- `find_passes` for a registered satellite: map each `_find_events` event
to a `SatellitePass`; `duration = (los_time - aos_time).total_seconds()`
is `60 * (los - aos)` at the 1-minute step.  The skyfield sunlit lookup at
the peak instant (defaulting to `False` when the ephemeris is unavailable
or fails) is the injected `sunlit_at`. -/
def find_passes (sat_name : String) (thr : ℚ) (samples : List Sample)
    (sunlit_at : ℕ → Bool) : List SatellitePass :=
  (find_events thr samples).map fun e =>
    { satellite_name := sat_name
      aos_time := e.aos_time
      los_time := e.los_time
      max_elevation_time := e.max_el_time
      max_elevation_deg := e.max_el
      aos_azimuth := e.aos_az
      los_azimuth := e.los_az
      duration_seconds := 60 * ((e.los_time : ℚ) - (e.aos_time : ℚ))
      is_sunlit := sunlit_at e.max_el_time }

/-! ### Verification predicates for the scan -/

/-- Lower bound on the rise index of any event still to be emitted: the
recorded pass start while in a pass, the current index otherwise. -/
def aosLB (i : ℕ) (st : ScanState) : ℕ :=
  st.pass_start.getD i

/-- Well-formedness of every emitted event: rise after the scan's lower
bound, strictly before set, set inside the window, peak instant within
the pass, peak at least the threshold. -/
def EventOK (thr : ℚ) (lb hi : ℕ) (e : PassEventRec) : Prop :=
  lb ≤ e.aos_time ∧ e.aos_time < e.los_time ∧ e.los_time < hi ∧
  e.aos_time ≤ e.max_el_time ∧ e.max_el_time < e.los_time ∧ thr ≤ e.max_el

/-- Reachable-state invariant of the `_find_events` loop at index `i` with
previous elevation `prev`. -/
def StInv (thr prev : ℚ) (i : ℕ) (st : ScanState) : Prop :=
  (st.in_pass = true →
    ∃ j k, st.pass_start = some j ∧ st.max_el_time = some k ∧
      j ≤ k ∧ k < i ∧ thr ≤ st.max_el ∧ thr ≤ prev) ∧
  (st.in_pass = false → st.pass_start = none)

/-! ### Concrete test vectors -/

/-- Sample TLE line 1 of the spec's round-trip property (ISS). -/
def SAMPLE_LINE1 : String :=
  "1 25544U 98067A   24001.50000000  .00016717  00000-0  30000-3 0  9999"

/-- Sample TLE line 2 of the spec's round-trip property (ISS). -/
def SAMPLE_LINE2 : String :=
  "2 25544  51.6400 247.4627 0006703 170.5510 189.5640 15.49541000  1000"

/-- `SAMPLE_LINE2` with the inclination columns 8-16 replaced by
`"999.9999"` (syntactically valid, physically impossible). -/
def BAD_INCL_LINE2 : String :=
  "2 25544 999.9999 247.4627 0006703 170.5510 189.5640 15.49541000  1000"

/-- Synthetic elevation profile of the spec's state-machine property:
below threshold before minute 5, above from minute 5 (30°) climbing to a
unique 45° peak at minute 20, descending but above threshold through
minute 34, below threshold from minute 35 to the window end. -/
def c5El (i : ℕ) : ℚ :=
  if i < 5 ∨ 35 ≤ i then 0
  else if i ≤ 20 then ((25 + i : ℕ) : ℚ)
  else ((65 - i : ℕ) : ℚ)

/-- The synthetic 60-minute sample series (azimuth at minute `i` is `i`). -/
def c5Samples : List Sample :=
  (List.range 60).map fun i => { el := c5El i, az := (i : ℚ) }

/-! ## Theorems -/

/-! ### Helper lemmas about the string primitives -/

theorem isDigit_toNat_le {c : Char} (h : c.isDigit = true) : c.toNat ≤ 57 := by
  simp only [Char.isDigit, Bool.and_eq_true, decide_eq_true_eq] at h
  have h2 := h.2
  rw [UInt32.le_def, BitVec.le_def] at h2
  exact h2

theorem digitVal_le {c : Char} (h : c.isDigit = true) : digitVal c ≤ 9 := by
  have := isDigit_toNat_le h
  unfold digitVal
  omega

theorem isDigit_not_ws {c : Char} (h : c.isDigit = true) :
    c.isWhitespace = false := by
  rcases Bool.eq_false_or_eq_true c.isWhitespace with hw | hw
  · exfalso
    have hc : c = ' ' ∨ c = '\t' ∨ c = '\r' ∨ c = '\n' := by
      simpa [Char.isWhitespace, or_assoc] using hw
    rcases hc with rfl | rfl | rfl | rfl <;> exact absurd h (by decide)
  · exact hw

theorem isDigit_not_special {c : Char} (h : c.isDigit = true) :
    c ≠ ' ' ∧ c ≠ '+' ∧ c ≠ '-' ∧ c ≠ '.' := by
  refine ⟨?_, ?_, ?_, ?_⟩ <;> rintro rfl <;> exact absurd h (by decide)

theorem dropWhile_eq_self_of_all {α : Type} (p : α → Bool) (l : List α)
    (h : ∀ c ∈ l, p c = false) : l.dropWhile p = l := by
  cases l with
  | nil => rfl
  | cons a t =>
    exact List.dropWhile_cons_of_neg (by simp [h a (List.mem_cons_self a t)])

theorem pyStrip_of_all {l : List Char} (h : ∀ c ∈ l, c.isWhitespace = false) :
    pyStrip (String.mk l) = String.mk l := by
  unfold pyStrip
  rw [show (String.mk l).toList = l from rfl]
  rw [dropWhile_eq_self_of_all _ _ h]
  rw [dropWhile_eq_self_of_all _ _ (fun c hc => h c (List.mem_reverse.mp hc))]
  rw [List.reverse_reverse]

theorem digitsToNat_aux (l : List Char) (h : ∀ c ∈ l, c.isDigit = true) :
    ∀ a : ℕ, l.foldl (fun a c => 10 * a + digitVal c) a < (a + 1) * 10 ^ l.length := by
  induction l with
  | nil => intro a; simpa using Nat.lt_succ_self a
  | cons c t ih =>
    intro a
    have hc : digitVal c ≤ 9 := digitVal_le (h c (List.mem_cons_self c t))
    have ht := ih (fun x hx => h x (List.mem_cons_of_mem _ hx)) (10 * a + digitVal c)
    simp only [List.foldl_cons, List.length_cons]
    calc t.foldl (fun a c => 10 * a + digitVal c) (10 * a + digitVal c)
        < (10 * a + digitVal c + 1) * 10 ^ t.length := ht
      _ ≤ ((a + 1) * 10) * 10 ^ t.length :=
          Nat.mul_le_mul_right _ (by omega)
      _ = (a + 1) * 10 ^ (t.length + 1) := by ring

theorem digitsToNat_lt (l : List Char) (h : ∀ c ∈ l, c.isDigit = true) :
    digitsToNat l < 10 ^ l.length := by
  have h0 := digitsToNat_aux l h 0
  rw [Nat.zero_add, Nat.one_mul] at h0
  exact h0

/-- Evaluating the syntactic float phase on `"0."` followed by a digit
string. -/
theorem pyFloatParts_zero_dot (s : String) (h : ∀ c ∈ s.toList, c.isDigit = true) :
    pyFloatParts ("0." ++ s) =
      some ⟨false, 0, digitsToNat s.toList, s.toList.length, 0⟩ := by
  obtain ⟨l⟩ := s
  have hlist : ("0." ++ String.mk l) = String.mk ('0' :: '.' :: l) := rfl
  have hnws : ∀ c ∈ ('0' :: '.' :: l), c.isWhitespace = false := by
    intro c hc
    rcases List.mem_cons.mp hc with rfl | hc2
    · decide
    rcases List.mem_cons.mp hc2 with rfl | hc3
    · decide
    · exact isDigit_not_ws (h c hc3)
  rw [hlist]
  unfold pyFloatParts
  rw [pyStrip_of_all hnws]
  simp only [show (String.mk ('0' :: '.' :: l)).toList = '0' :: '.' :: l from rfl,
    List.head?_cons]
  simp
  have h' : ∀ x ∈ l, x.isDigit = true := fun x hx => h x hx
  rw [if_pos h', List.takeWhile_eq_self_iff.mpr h']
  rw [show digitsToNat ['0'] = 0 from rfl]

/-- `float("0." + digits)` is the digits' value divided by `10 ^ count`. -/
theorem pyFloat_zero_dot (s : String) (h : ∀ c ∈ s.toList, c.isDigit = true) :
    pyFloat ("0." ++ s) =
      some ((digitsToNat s.toList : ℚ) / 10 ^ s.toList.length) := by
  rw [pyFloat, pyFloatParts_zero_dot s h]
  simp [partsVal]

/-- `int("-" + digit)` is the digit's negated value. -/
theorem pyInt_neg_digit (d : Char) (hd : d.isDigit = true) :
    pyInt (String.mk ['-', d]) = some (-(digitVal d : ℤ)) := by
  have hall : ∀ c ∈ ['-', d], c.isWhitespace = false := by
    intro c hc
    rcases List.mem_cons.mp hc with rfl | hc2
    · decide
    rcases List.mem_cons.mp hc2 with rfl | hc3
    · exact isDigit_not_ws hd
    · exact absurd hc3 (List.not_mem_nil c)
  unfold pyInt
  rw [pyStrip_of_all hall]
  simp only [show (String.mk ['-', d]).toList = ['-', d] from rfl, List.head?_cons]
  simp [digitRun, hd, digitsToNat, digitVal]

/-- `int("+" + digit)` is the digit's value. -/
theorem pyInt_pos_digit (d : Char) (hd : d.isDigit = true) :
    pyInt (String.mk ['+', d]) = some ((digitVal d : ℤ)) := by
  have hall : ∀ c ∈ ['+', d], c.isWhitespace = false := by
    intro c hc
    rcases List.mem_cons.mp hc with rfl | hc2
    · decide
    rcases List.mem_cons.mp hc2 with rfl | hc3
    · exact isDigit_not_ws hd
    · exact absurd hc3 (List.not_mem_nil c)
  unfold pyInt
  rw [pyStrip_of_all hall]
  simp only [show (String.mk ['+', d]).toList = ['+', d] from rfl, List.head?_cons]
  simp [digitRun, hd, digitsToNat, digitVal]

/-- `decode_packed` on blank input (`if mm_ddot_str:` false branch). -/
theorem decode_packed_blank (s : String) (h : pyStrip s = "") :
    decode_packed s = some 0 := by
  unfold decode_packed
  rw [h]
  rfl

/-- `decode_packed` of `digits ++ "-" ++ digit`: mantissa `0.<digits>`,
negative exponent, positive overall sign (leading character is a digit). -/
theorem decode_packed_digits (m : List Char) (hm : m ≠ [])
    (h : ∀ c ∈ m, c.isDigit = true) (d : Char) (hd : d.isDigit = true) :
    decode_packed (String.mk (m ++ ['-', d])) =
      some (((digitsToNat m : ℚ) / 10 ^ m.length) *
        (10 : ℚ) ^ (-(digitVal d : ℤ))) := by
  have hall : ∀ c ∈ (m ++ ['-', d]), c.isWhitespace = false := by
    intro c hc
    rcases List.mem_append.mp hc with hc | hc
    · exact isDigit_not_ws (h c hc)
    · rcases List.mem_cons.mp hc with rfl | hc2
      · decide
      rcases List.mem_cons.mp hc2 with rfl | hc3
      · exact isDigit_not_ws hd
      · exact absurd hc3 (List.not_mem_nil c)
  unfold decode_packed
  rw [pyStrip_of_all hall]
  simp only []
  rw [show (String.mk (m ++ ['-', d])).toList = m ++ ['-', d] from rfl]
  rw [if_neg (by simp)]
  have hdrop : pyDropLast2 (String.mk (m ++ ['-', d])) = String.mk m := by
    unfold pyDropLast2
    rw [show (String.mk (m ++ ['-', d])).toList = m ++ ['-', d] from rfl]
    congr 1
    rw [List.length_append]
    simp only [List.length_cons, List.length_nil]
    rw [show m.length + (0 + 1 + 1) - 2 = m.length by omega]
    exact List.take_left' rfl
  have hlast : pyLast2 (String.mk (m ++ ['-', d])) = String.mk ['-', d] := by
    unfold pyLast2
    rw [show (String.mk (m ++ ['-', d])).toList = m ++ ['-', d] from rfl]
    congr 1
    rw [List.length_append]
    simp only [List.length_cons, List.length_nil]
    rw [show m.length + (0 + 1 + 1) - 2 = m.length by omega]
    exact List.drop_left' rfl
  rw [hdrop, hlast]
  have hfilter : (String.mk m).toList.filter
      (fun c => c ≠ ' ' ∧ c ≠ '+' ∧ c ≠ '-') = m := by
    rw [show (String.mk m).toList = m from rfl]
    apply List.filter_eq_self.mpr
    intro c hc
    obtain ⟨h1, h2, h3, -⟩ := isDigit_not_special (h c hc)
    simp [h1, h2, h3]
  rw [hfilter]
  rw [show String.mk m = (String.mk m) from rfl]
  have hmant := pyFloat_zero_dot (String.mk m)
    (by rw [show (String.mk m).toList = m from rfl]; exact h)
  rw [show (String.mk m).toList = m from rfl] at hmant
  rw [hmant, pyInt_neg_digit d hd]
  obtain ⟨c, m', rfl⟩ := List.exists_cons_of_ne_nil hm
  have hc1 : c ≠ '-' := (isDigit_not_special (h c (List.mem_cons_self c m'))).2.2.1
  simp [hc1]

/-- `decode_packed` of `"-" ++ digits ++ "+" ++ digit`: negative overall
sign with a positive exponent. -/
theorem decode_packed_neg_digits (m : List Char)
    (h : ∀ c ∈ m, c.isDigit = true) (d : Char) (hd : d.isDigit = true) :
    decode_packed (String.mk (('-' :: m) ++ ['+', d])) =
      some (-(((digitsToNat m : ℚ) / 10 ^ m.length) *
        (10 : ℚ) ^ ((digitVal d : ℤ)))) := by
  have hall : ∀ c ∈ (('-' :: m) ++ ['+', d]), c.isWhitespace = false := by
    intro c hc
    rcases List.mem_append.mp hc with hc | hc
    · rcases List.mem_cons.mp hc with rfl | hc2
      · decide
      · exact isDigit_not_ws (h c hc2)
    · rcases List.mem_cons.mp hc with rfl | hc2
      · decide
      rcases List.mem_cons.mp hc2 with rfl | hc3
      · exact isDigit_not_ws hd
      · exact absurd hc3 (List.not_mem_nil c)
  unfold decode_packed
  rw [pyStrip_of_all hall]
  simp only []
  rw [show (String.mk (('-' :: m) ++ ['+', d])).toList = ('-' :: m) ++ ['+', d]
      from rfl]
  rw [if_neg (by simp)]
  have hdrop : pyDropLast2 (String.mk (('-' :: m) ++ ['+', d])) =
      String.mk ('-' :: m) := by
    unfold pyDropLast2
    rw [show (String.mk (('-' :: m) ++ ['+', d])).toList = ('-' :: m) ++ ['+', d]
        from rfl]
    congr 1
    rw [List.length_append]
    simp only [List.length_cons, List.length_nil]
    rw [show m.length + 1 + (0 + 1 + 1) - 2 = m.length + 1 by omega]
    exact List.take_left' (by simp)
  have hlast : pyLast2 (String.mk (('-' :: m) ++ ['+', d])) =
      String.mk ['+', d] := by
    unfold pyLast2
    rw [show (String.mk (('-' :: m) ++ ['+', d])).toList = ('-' :: m) ++ ['+', d]
        from rfl]
    congr 1
    rw [List.length_append]
    simp only [List.length_cons, List.length_nil]
    rw [show m.length + 1 + (0 + 1 + 1) - 2 = m.length + 1 by omega]
    exact List.drop_left' (by simp)
  rw [hdrop, hlast]
  have hfilter : (String.mk ('-' :: m)).toList.filter
      (fun c => c ≠ ' ' ∧ c ≠ '+' ∧ c ≠ '-') = m := by
    rw [show (String.mk ('-' :: m)).toList = '-' :: m from rfl]
    rw [List.filter_cons_of_neg (by simp)]
    apply List.filter_eq_self.mpr
    intro c hc
    obtain ⟨h1, h2, h3, -⟩ := isDigit_not_special (h c hc)
    simp [h1, h2, h3]
  rw [hfilter]
  have hmant := pyFloat_zero_dot (String.mk m)
    (by rw [show (String.mk m).toList = m from rfl]; exact h)
  rw [show (String.mk m).toList = m from rfl] at hmant
  rw [hmant, pyInt_pos_digit d hd]
  simp

/-- `decode_packed` only depends on its input through `strip`. -/
theorem decode_packed_congr {a b : String} (h : pyStrip a = pyStrip b) :
    decode_packed a = decode_packed b := by
  unfold decode_packed
  rw [h]

/-- C1 counterexample: the claim (and the spec's boundary table) puts an
altitude of exactly 35000 in MEO, but `classify_orbit` tests
`altitude_km < 35000` for MEO, so exactly 35000 falls through to the GEO
branch. -/
theorem claim_C1_counterexample :
    classify_orbit 35000 = "GEO" ∧ classify_orbit 35000 ≠ "MEO" := by
  constructor <;> decide

/-- C1 (amended): `classify_orbit` returns LEO for altitude `< 2000`, MEO on
`[2000, 35000)` (half-open: exactly 35000 is GEO, not MEO), GEO on
`[35000, 36500]`, HEO above 36500. -/
theorem claim_C1_classify (a : ℚ) :
    (a < 2000 → classify_orbit a = "LEO") ∧
    (2000 ≤ a ∧ a < 35000 → classify_orbit a = "MEO") ∧
    (35000 ≤ a ∧ a ≤ 36500 → classify_orbit a = "GEO") ∧
    (36500 < a → classify_orbit a = "HEO") := by
  refine ⟨fun h => ?_, fun h => ?_, fun h => ?_, fun h => ?_⟩
  · simp [classify_orbit, h]
  · simp [classify_orbit, not_lt.mpr h.1, h.2]
  · have h1 : ¬ a < 2000 := by linarith [h.1]
    have h2 : ¬ a < 35000 := not_lt.mpr h.1
    simp [classify_orbit, h1, h2, h.1, h.2]
  · have h1 : ¬ a < 2000 := by linarith
    have h2 : ¬ a < 35000 := by linarith
    have h3 : ¬ (35000 ≤ a ∧ a ≤ 36500) := by
      rintro ⟨-, hb⟩; linarith
    simp [classify_orbit, h1, h2, h3]

/-- C1 witness: the amended boundaries at the spec's probe altitudes. -/
theorem claim_C1_classify_witness :
    classify_orbit 1999.99 = "LEO" ∧ classify_orbit 2000 = "MEO" ∧
    classify_orbit 35000.01 = "GEO" ∧ classify_orbit 36500.01 = "HEO" :=
  ⟨(claim_C1_classify (1999.99 : ℚ)).1 (by norm_num),
   (claim_C1_classify 2000).2.1 ⟨by norm_num, by norm_num⟩,
   (claim_C1_classify (35000.01 : ℚ)).2.2.1 ⟨by norm_num, by norm_num⟩,
   (claim_C1_classify (36500.01 : ℚ)).2.2.2 (by norm_num)⟩

/-- C2: `mean_motion_to_period n` is exactly `1440 / n` for `n > 0`, is
strictly decreasing there, and raises `ValueError` (the spec's
`DomainError`) before any computation when `n ≤ 0`. -/
theorem claim_C2_period (n a b : ℚ) :
    (0 < n → mean_motion_to_period n = .ok (1440 / n)) ∧
    (0 < a → a < b → 1440 / b < 1440 / a) ∧
    (n ≤ 0 → mean_motion_to_period n = .error .valueError) := by
  refine ⟨fun h => ?_, fun ha hab => ?_, fun h => ?_⟩
  · simp [mean_motion_to_period, not_le.mpr h]
  · exact div_lt_div_of_pos_left (by norm_num) ha hab
  · simp [mean_motion_to_period, h]

/-- C2 witness: period of 2 rev/day is 720 minutes, 3 rev/day is shorter
than 2 rev/day, and mean motion `-1` raises. -/
theorem claim_C2_period_witness :
    mean_motion_to_period 2 = .ok (1440 / 2) ∧
    (1440 / (3 : ℚ) < 1440 / 2) ∧
    mean_motion_to_period (-1) = .error .valueError :=
  ⟨(claim_C2_period 2 2 3).1 (by norm_num),
   (claim_C2_period 2 2 3).2.1 (by norm_num) (by norm_num),
   (claim_C2_period (-1) 2 3).2.2 (by norm_num)⟩

/-- C3: the packed-notation decoder: a blank field decodes to exactly 0.0;
the spec's example `" 12345-3"` decodes to `0.12345 * 10 ^ (-3)`; a leading
`"-"` negates the overall value independently of the exponent sign
(`"-12345+3"` is negative with exponent `+3`); and in general a digit
mantissa with a signed single-digit exponent decodes to
`0.<digits> * 10 ^ (±exponent)`. -/
theorem claim_C3_packed_decode (s : String) (m : List Char) (d : Char) :
    (pyStrip s = "" → decode_packed s = some 0) ∧
    decode_packed " 12345-3" = some (0.12345 * (10 : ℚ) ^ (-3 : ℤ)) ∧
    decode_packed "-12345+3" = some (-(0.12345 * (10 : ℚ) ^ (3 : ℤ))) ∧
    (m ≠ [] → (∀ c ∈ m, c.isDigit = true) → d.isDigit = true →
      decode_packed (String.mk (m ++ ['-', d])) =
        some (((digitsToNat m : ℚ) / 10 ^ m.length) *
          (10 : ℚ) ^ (-(digitVal d : ℤ)))) ∧
    ((∀ c ∈ m, c.isDigit = true) → d.isDigit = true →
      decode_packed (String.mk (('-' :: m) ++ ['+', d])) =
        some (-(((digitsToNat m : ℚ) / 10 ^ m.length) *
          (10 : ℚ) ^ ((digitVal d : ℤ))))) := by
  refine ⟨fun h => decode_packed_blank s h, ?_, ?_,
    fun hm h hd => decode_packed_digits m hm h d hd,
    fun h hd => decode_packed_neg_digits m h d hd⟩
  · have h2 : decode_packed " 12345-3" =
        decode_packed (String.mk (['1', '2', '3', '4', '5'] ++ ['-', '3'])) :=
      decode_packed_congr (by decide)
    rw [h2, decode_packed_digits _ (by decide) (by decide) '3' (by decide)]
    rw [show digitsToNat ['1', '2', '3', '4', '5'] = 12345 from rfl,
      show digitVal '3' = 3 from rfl,
      show (['1', '2', '3', '4', '5'] : List Char).length = 5 from rfl]
    norm_num
  · have h2 : decode_packed "-12345+3" =
        decode_packed (String.mk (('-' :: ['1', '2', '3', '4', '5']) ++ ['+', '3'])) :=
      decode_packed_congr (by decide)
    rw [h2, decode_packed_neg_digits _ (by decide) '3' (by decide)]
    rw [show digitsToNat ['1', '2', '3', '4', '5'] = 12345 from rfl,
      show digitVal '3' = 3 from rfl,
      show (['1', '2', '3', '4', '5'] : List Char).length = 5 from rfl]
    norm_num

/-- C3 witness: the blank and general cases at concrete inputs. -/
theorem claim_C3_packed_decode_witness :
    decode_packed "   " = some 0 ∧
    decode_packed (String.mk (['7'] ++ ['-', '2'])) =
      some (((digitsToNat ['7'] : ℚ) / 10 ^ (['7'] : List Char).length) *
        (10 : ℚ) ^ (-(digitVal '2' : ℤ))) ∧
    decode_packed (String.mk (('-' :: ['7']) ++ ['+', '2'])) =
      some (-(((digitsToNat ['7'] : ℚ) / 10 ^ (['7'] : List Char).length) *
        (10 : ℚ) ^ ((digitVal '2' : ℤ)))) :=
  ⟨(claim_C3_packed_decode "   " ['7'] '2').1 (by decide),
   (claim_C3_packed_decode "   " ['7'] '2').2.2.2.1 (by decide)
     (by decide) (by decide),
   (claim_C3_packed_decode "   " ['7'] '2').2.2.2.2 (by decide) (by decide)⟩

/-- C4: `parse_string` is a total function of its input (the model returns
a list for every string; the Python counterpart catches each record's
exceptions inside the loop): the empty string yields the empty list; the
input is stripped, split into lines and scanned in windows of three
consecutive lines; a window whose second and third stripped lines begin
with "1" and "2" yields one satellite on decoding success, is skipped
(advance three lines) on decoding failure, and any other window advances
by one line; fewer than three remaining lines ends the scan. -/
theorem claim_C4_parse_string (s a b c : String) (rest : List String)
    (e : PyExn) (t : TLEData) :
    parse_string "" = [] ∧
    parse_string s = scanTLE ((splitNl (pyStrip s).toList).map String.mk) ∧
    (scanTLE [] = [] ∧ scanTLE [a] = [] ∧ scanTLE [a, b] = []) ∧
    ((pyStartswith (pyStrip b) "1" ∧ pyStartswith (pyStrip c) "2") →
      (parse_lines (pyStrip a) (pyStrip b) (pyStrip c) = .ok t →
        scanTLE (a :: b :: c :: rest) = t :: scanTLE rest) ∧
      (parse_lines (pyStrip a) (pyStrip b) (pyStrip c) = .error e →
        scanTLE (a :: b :: c :: rest) = scanTLE rest)) ∧
    (¬ (pyStartswith (pyStrip b) "1" ∧ pyStartswith (pyStrip c) "2") →
      scanTLE (a :: b :: c :: rest) = scanTLE (b :: c :: rest)) := by
  refine ⟨?_, rfl, ⟨by simp [scanTLE], by simp [scanTLE], by simp [scanTLE]⟩,
    fun hpre => ⟨fun hok => ?_, fun herr => ?_⟩, fun hpre => ?_⟩
  · simp [parse_string, pyStrip, splitNl, scanTLE]
  · rw [scanTLE, if_pos hpre, hok]
    rfl
  · rw [scanTLE, if_pos hpre, herr]
    rfl
  · rw [scanTLE, if_neg hpre]

/-- C4 witness: the empty string, a short tail, a stray-line window, and a
window that passes the prefix check but fails numeric decoding (skipped,
scan continues and ends with no satellites). -/
theorem claim_C4_parse_string_witness :
    parse_string "" = [] ∧
    scanTLE ["STRAY"] = [] ∧
    scanTLE ["NAME", "1 junk", "2 junk"] = scanTLE [] ∧
    scanTLE ["STRAY", "X", "Y", "Z"] = scanTLE ["X", "Y", "Z"] := by
  refine ⟨(claim_C4_parse_string "" "STRAY" "X" "Y" [] .valueError
      ⟨"", 0, 'U', 0, 0, "", 0, 0, 0, 0, 0, 0, 0, 0, 0, 0, 0, 0, "", ""⟩).1, ?_, ?_, ?_⟩
  · exact (claim_C4_parse_string "" "STRAY" "X" "Y" [] .valueError
      ⟨"", 0, 'U', 0, 0, "", 0, 0, 0, 0, 0, 0, 0, 0, 0, 0, 0, 0, "", ""⟩).2.2.1.2.1
  · exact ((claim_C4_parse_string "" "NAME" "1 junk" "2 junk" [] .valueError
      ⟨"", 0, 'U', 0, 0, "", 0, 0, 0, 0, 0, 0, 0, 0, 0, 0, 0, 0, "", ""⟩).2.2.2.1 (by decide)).2 (by rfl)
  · exact (claim_C4_parse_string "" "STRAY" "X" "Y" ["Z"] .valueError
      ⟨"", 0, 'U', 0, 0, "", 0, 0, 0, 0, 0, 0, 0, 0, 0, 0, 0, 0, "", ""⟩).2.2.2.2 (by decide)

/-- No set transition in a step means no event is emitted by that step. -/
theorem stepScan_no_down (thr prev : ℚ) (i : ℕ) (s : Sample) (st : ScanState)
    (hnd : ¬ (thr ≤ prev ∧ s.el < thr)) : (stepScan thr prev i s st).1 = [] := by
  simp [stepScan, hnd]

/-- A scan over a series with no downward threshold crossing emits
nothing: the pass (if any) stays open and is never reported. -/
theorem scanSamples_no_down (thr : ℚ) :
    ∀ (samples : List Sample) (prev : ℚ) (i : ℕ) (st : ScanState),
      List.Chain' (fun a b => ¬ (thr ≤ a ∧ b < thr))
        (prev :: samples.map Sample.el) →
      scanSamples thr prev i st samples = [] := by
  intro samples
  induction samples with
  | nil => intro prev i st _; rfl
  | cons s rest ih =>
    intro prev i st hch
    rw [List.map_cons, List.chain'_cons] at hch
    obtain ⟨hnd, hch⟩ := hch
    rw [scanSamples, stepScan_no_down thr prev i s st hnd, List.nil_append]
    exact ih s.el (i + 1) _ hch

/-- `_find_events` on a series with no downward crossing of the threshold
returns no events. -/
theorem find_events_no_down (thr : ℚ) (samples : List Sample)
    (h : List.Chain' (fun a b => ¬ (thr ≤ a ∧ b < thr))
      (samples.map Sample.el)) :
    find_events thr samples = [] := by
  cases samples with
  | nil => rfl
  | cons s rest =>
    rw [find_events]
    exact scanSamples_no_down thr rest s.el 1 initScanState (by simpa using h)

/-- C5: on the synthetic series (rise past 10° at minute 5, unique 45°
peak at minute 20, drop below 10° at minute 35, window of 60 one-minute
samples) the predictor emits exactly one pass: rise minute 5 with that
sample's azimuth, peak 45° at minute 20, set minute 35 with that sample's
azimuth, duration 1800 seconds; and any series with no downward crossing
(a pass still open at the window end) yields zero events. -/
theorem claim_C5_pass_state_machine (thr : ℚ) (samples : List Sample) :
    find_passes "ISS" 10 c5Samples (fun _ => false) =
      [{ satellite_name := "ISS", aos_time := 5, los_time := 35,
         max_elevation_time := 20, max_elevation_deg := 45,
         aos_azimuth := 5, los_azimuth := 35, duration_seconds := 1800,
         is_sunlit := false }] ∧
    (List.Chain' (fun a b => ¬ (thr ≤ a ∧ b < thr)) (samples.map Sample.el) →
      find_events thr samples = []) := by
  constructor
  · have hev : find_events 10 c5Samples =
        [{ aos_time := 5, los_time := 35, max_el_time := 20, max_el := 45,
           aos_az := 5, los_az := 35 }] := by
      set_option maxRecDepth 4000 in decide
    simp only [find_passes, hev, List.map_cons, List.map_nil]
    norm_num
  · exact fun h => find_events_no_down thr samples h

/-- C5 witness: a series rising through the threshold with no downward
crossing before the window end yields zero events. -/
theorem claim_C5_pass_state_machine_witness :
    find_events 10 [⟨0, 0⟩, ⟨15, 0⟩, ⟨20, 0⟩] = [] :=
  (claim_C5_pass_state_machine 10 [⟨0, 0⟩, ⟨15, 0⟩, ⟨20, 0⟩]).2
    (by norm_num [List.chain'_cons])

/-- Every event of the scan is well-formed and the events are emitted in
strictly increasing order of rise time. -/
theorem scanSamples_spec (thr : ℚ) :
    ∀ (samples : List Sample) (prev : ℚ) (i : ℕ) (st : ScanState),
      StInv thr prev i st →
      (∀ e ∈ scanSamples thr prev i st samples,
         EventOK thr (aosLB i st) (i + samples.length) e) ∧
      (scanSamples thr prev i st samples).Pairwise
        (fun a b => a.aos_time < b.aos_time) := by
  intro samples
  induction samples with
  | nil =>
    intro prev i st _
    exact ⟨fun e he => absurd he (List.not_mem_nil e), List.Pairwise.nil⟩
  | cons s rest ih =>
    intro prev i st hinv
    obtain ⟨hinv1, hinv2⟩ := hinv
    rw [scanSamples]
    by_cases hset : thr ≤ prev ∧ s.el < thr
    · have hrise : ¬ (prev < thr ∧ thr ≤ s.el) := fun h => absurd hset.1 (not_le.mpr h.1)
      by_cases hin : st.in_pass = true
      · obtain ⟨j, k, hps, hmt, hjk, hki, hth, hprev⟩ := hinv1 hin
        have hstep : stepScan thr prev i s st =
            ([{ aos_time := j, los_time := i, max_el_time := k,
                max_el := st.max_el, aos_az := st.pass_start_az.getD 0,
                los_az := s.az }],
             { st with in_pass := false, pass_start := none, max_el := -90 }) := by
          simp [stepScan, hrise, hset, hin, hps, hmt]
        rw [hstep]
        have hrec := ih s.el (i + 1)
          ({ st with in_pass := false, pass_start := none, max_el := -90 })
          ⟨by intro h; simp at h, by intro _; rfl⟩
        obtain ⟨hall, hpw⟩ := hrec
        constructor
        · intro e he
          rcases List.mem_cons.mp he with rfl | he
          · refine ⟨?_, ?_, ?_, ?_, ?_, ?_⟩
            · simp [aosLB, hps]
            · exact Nat.lt_of_le_of_lt hjk hki
            · simp only [List.length_cons]; omega
            · exact hjk
            · exact hki
            · exact hth
          · obtain ⟨h1, h2, h3, h4, h5, h6⟩ := hall e he
            simp only [aosLB, Option.getD_none, Option.getD_some] at h1
            refine ⟨?_, h2, ?_, h4, h5, h6⟩
            · simp only [aosLB, hps, Option.getD_none, Option.getD_some]; omega
            · simp only [List.length_cons]; omega
        · refine List.Pairwise.cons ?_ hpw
          intro b hb
          obtain ⟨h1, -, -, -, -, -⟩ := hall b hb
          simp only [aosLB, Option.getD_none, Option.getD_some] at h1
          simp only []
          omega
      · have hinf : st.in_pass = false := by
          revert hin; cases st.in_pass <;> simp
        have hps := hinv2 hinf
        have hstep : stepScan thr prev i s st =
            ([], { st with in_pass := false, pass_start := none, max_el := -90 }) := by
          simp [stepScan, hrise, hset, hinf]
        rw [hstep, List.nil_append]
        have hrec := ih s.el (i + 1)
          ({ st with in_pass := false, pass_start := none, max_el := -90 })
          ⟨by intro h; simp at h, by intro _; rfl⟩
        obtain ⟨hall, hpw⟩ := hrec
        refine ⟨?_, hpw⟩
        intro e he
        obtain ⟨h1, h2, h3, h4, h5, h6⟩ := hall e he
        refine ⟨?_, h2, ?_, h4, h5, h6⟩
        · simp only [aosLB, hps, Option.getD_none, Option.getD_some]
          simp only [aosLB, Option.getD_none, Option.getD_some] at h1
          omega
        · simp only [List.length_cons]; omega
    · by_cases hrise : prev < thr ∧ thr ≤ s.el
      · have hinf : st.in_pass = false := by
          by_contra h
          have hin : st.in_pass = true := by
            revert h; cases st.in_pass <;> simp
          obtain ⟨j, k, -, -, -, -, -, hprev⟩ := hinv1 hin
          exact absurd hprev (not_le.mpr hrise.1)
        have hps := hinv2 hinf
        have hstep : stepScan thr prev i s st =
            ([], { in_pass := true, pass_start := some i, pass_start_az := some s.az,
                   max_el := s.el, max_el_time := some i }) := by
          simp [stepScan, hrise, hset]
        rw [hstep, List.nil_append]
        have hrec := ih s.el (i + 1)
          ({ in_pass := true, pass_start := some i, pass_start_az := some s.az,
             max_el := s.el, max_el_time := some i })
          ⟨by intro _; exact ⟨i, i, rfl, rfl, le_refl i, Nat.lt_succ_self i,
              hrise.2, hrise.2⟩,
           by intro h; simp at h⟩
        obtain ⟨hall, hpw⟩ := hrec
        refine ⟨?_, hpw⟩
        intro e he
        obtain ⟨h1, h2, h3, h4, h5, h6⟩ := hall e he
        refine ⟨?_, h2, ?_, h4, h5, h6⟩
        · simp only [aosLB, hps, Option.getD_none, Option.getD_some]
          simp only [aosLB, Option.getD_none, Option.getD_some] at h1
          omega
        · simp only [List.length_cons]; omega
      · have hstep : stepScan thr prev i s st =
            ([], if st.in_pass ∧ st.max_el < s.el then
              { st with max_el := s.el, max_el_time := some i } else st) := by
          simp [stepScan, hrise, hset]
        rw [hstep, List.nil_append]
        by_cases htr : st.in_pass ∧ st.max_el < s.el
        · rw [if_pos htr]
          obtain ⟨j, k, hps, hmt, hjk, hki, hth, hprev⟩ := hinv1 htr.1
          have hel : thr ≤ s.el := by
            rcases not_and_or.mp hset with h | h
            · exact absurd hprev h
            · exact not_lt.mp h
          have hrec := ih s.el (i + 1)
            ({ st with max_el := s.el, max_el_time := some i })
            ⟨by intro _; exact ⟨j, i, hps, rfl, by omega, Nat.lt_succ_self i,
                hel, hel⟩,
             by intro h; have := htr.1; simp_all⟩
          obtain ⟨hall, hpw⟩ := hrec
          refine ⟨?_, hpw⟩
          intro e he
          obtain ⟨h1, h2, h3, h4, h5, h6⟩ := hall e he
          refine ⟨?_, h2, ?_, h4, h5, h6⟩
          · rw [show aosLB (i + 1) ({ st with max_el := s.el, max_el_time := some i }) = aosLB (i + 1) st from rfl] at h1
            simp only [aosLB, hps, Option.getD_none, Option.getD_some] at h1 ⊢
            omega
          · simp only [List.length_cons]; omega
        · rw [if_neg htr]
          have hinvnew : StInv thr s.el (i + 1) st := by
            constructor
            · intro hin
              obtain ⟨j, k, hps, hmt, hjk, hki, hth, hprev⟩ := hinv1 hin
              have hel : thr ≤ s.el := by
                rcases not_and_or.mp hset with h | h
                · exact absurd hprev h
                · exact not_lt.mp h
              exact ⟨j, k, hps, hmt, hjk, by omega, hth, hel⟩
            · exact hinv2
          have hrec := ih s.el (i + 1) st hinvnew
          obtain ⟨hall, hpw⟩ := hrec
          refine ⟨?_, hpw⟩
          intro e he
          obtain ⟨h1, h2, h3, h4, h5, h6⟩ := hall e he
          refine ⟨?_, h2, ?_, h4, h5, h6⟩
          · simp only [aosLB, Option.getD_none, Option.getD_some] at h1 ⊢
            cases hps : st.pass_start with
            | none => simp only [hps, Option.getD_none] at h1 ⊢; omega
            | some j => simp only [hps, Option.getD_some] at h1 ⊢; omega
          · simp only [List.length_cons]; omega


/-- C10: every `SatellitePass` returned by `find_passes` has rise strictly
before set, set inside the sampled window, duration equal to
`60 * (set - rise)` seconds and at least one 60-second sampling step, peak
instant within `[rise, set]`, peak elevation at least the threshold, and
the list is in chronological order of rise time. -/
theorem claim_C10_pass_invariants (sat : String) (thr : ℚ)
    (samples : List Sample) (sunlit : ℕ → Bool) :
    (∀ p ∈ find_passes sat thr samples sunlit,
        p.aos_time < p.los_time ∧ p.los_time < samples.length ∧
        p.duration_seconds = 60 * ((p.los_time : ℚ) - (p.aos_time : ℚ)) ∧
        60 ≤ p.duration_seconds ∧
        p.aos_time ≤ p.max_elevation_time ∧ p.max_elevation_time ≤ p.los_time ∧
        thr ≤ p.max_elevation_deg) ∧
    (find_passes sat thr samples sunlit).Pairwise
      (fun a b => a.aos_time < b.aos_time) := by
  cases samples with
  | nil =>
    constructor
    · intro p hp
      simp [find_passes, find_events] at hp
    · simp [find_passes, find_events]
  | cons s rest =>
    have hspec := scanSamples_spec thr rest s.el 1 initScanState
      ⟨by intro h; simp [initScanState] at h, by intro _; rfl⟩
    obtain ⟨hall, hpw⟩ := hspec
    constructor
    · intro p hp
      simp only [find_passes, find_events, List.mem_map] at hp
      obtain ⟨e, he, rfl⟩ := hp
      obtain ⟨h1, h2, h3, h4, h5, h6⟩ := hall e he
      dsimp only
      refine ⟨h2, ?_, rfl, ?_, h4, le_of_lt h5, h6⟩
      · simp only [List.length_cons]; omega
      · have hle : e.aos_time + 1 ≤ e.los_time := h2
        have hq : (e.aos_time : ℚ) + 1 ≤ (e.los_time : ℚ) := by exact_mod_cast hle
        nlinarith [hq]
    · simp only [find_passes, find_events]
      exact List.Pairwise.map _ (fun a b hab => hab) hpw

/-- C10 witness: a three-sample series with one pass (rise at minute 1,
set at minute 2): positive one-step duration and ordered times. -/
theorem claim_C10_pass_invariants_witness :
    (1 < 2) ∧ ((60 : ℚ) ≤ 60 * (((2 : ℕ) : ℚ) - ((1 : ℕ) : ℚ))) := by
  have h := (claim_C10_pass_invariants "S" 10
      [⟨0, 7⟩, ⟨20, 8⟩, ⟨0, 9⟩] (fun _ => false)).1
    { satellite_name := "S", aos_time := 1, los_time := 2,
      max_elevation_time := 1, max_elevation_deg := 20, aos_azimuth := 8,
      los_azimuth := 9, duration_seconds := 60 * (((2 : ℕ) : ℚ) - ((1 : ℕ) : ℚ)),
      is_sunlit := false }
    (List.Mem.head _)
  exact ⟨h.1, h.2.2.2.1⟩

/-- C6: after stripping, a missing `"1"`/`"2"` line prefix makes
`parse_lines` fail with the spec's `FormatError`; the record is returned
only by the final constructor of the success path, so a failing decode
yields an error value and no partially-built record. -/
theorem claim_C6_prefix_error (name line1 line2 : String)
    (h : ¬ (pyStartswith (pyStrip line1) "1" ∧ pyStartswith (pyStrip line2) "2")) :
    parse_lines name line1 line2 = .error .formatError := by
  simp only [parse_lines]
  rw [if_pos h]
  rfl

/-- C6 witness: the repository test's malformed lines are rejected with
`FormatError`. -/
theorem claim_C6_prefix_error_witness :
    parse_lines "BAD SAT" "X invalid line" "Y also invalid" =
      .error .formatError :=
  claim_C6_prefix_error "BAD SAT" "X invalid line" "Y also invalid" (by decide)

/-- Full evaluation of `parse_lines` on the sample TLE pair; field values
are in decomposed-literal form. -/
theorem sample_parse_eval :
    parse_lines "ISS (ZARYA)" SAMPLE_LINE1 SAMPLE_LINE2 = Except.ok
      { name := "ISS (ZARYA)", norad_id := 25544, classification := 'U',
        launch_year := 98, launch_number := 67, piece := "A",
        epoch_year := 24,
        epoch_day := partsVal ⟨false, 1, 50000000, 8, 0⟩,
        mean_motion_dot := partsVal ⟨false, 0, 16717, 8, 0⟩,
        mean_motion_ddot := partsVal ⟨false, 0, 0, 5, 0⟩ * (10 : ℚ) ^ (-(0 : ℤ)),
        bstar := partsVal ⟨false, 0, 30000, 5, 0⟩ * (10 : ℚ) ^ (-(3 : ℤ)),
        inclination := partsVal ⟨false, 51, 6400, 4, 0⟩,
        raan := partsVal ⟨false, 247, 4627, 4, 0⟩,
        eccentricity := partsVal ⟨false, 0, 6703, 7, 0⟩,
        arg_perigee := partsVal ⟨false, 170, 5510, 4, 0⟩,
        mean_anomaly := partsVal ⟨false, 189, 5640, 4, 0⟩,
        mean_motion := partsVal ⟨false, 15, 49541000, 8, 0⟩,
        rev_number := 100,
        line1 := SAMPLE_LINE1, line2 := SAMPLE_LINE2 } := by
  rfl

/-- Inversion helpers for the monadic decode chain. -/
theorem req_bind_ok {α β : Type} {o : Option α} {f : α → Except PyExn β}
    {b : β} (h : Bind.bind (req o) f = .ok b) :
    ∃ a, o = some a ∧ f a = .ok b := by
  cases o with
  | none => simp [req, Bind.bind, Except.bind] at h
  | some a =>
    refine ⟨a, rfl, ?_⟩
    simpa [req, Bind.bind, Except.bind] using h

theorem reqIdx_bind_ok {α β : Type} {o : Option α} {f : α → Except PyExn β}
    {b : β} (h : Bind.bind (reqIdx o) f = .ok b) :
    ∃ a, o = some a ∧ f a = .ok b := by
  cases o with
  | none => simp [reqIdx, Bind.bind, Except.bind] at h
  | some a =>
    refine ⟨a, rfl, ?_⟩
    simpa [reqIdx, Bind.bind, Except.bind] using h

theorem parse_lines_ok_ecc {name l1 l2 : String} {t : TLEData}
    (h : parse_lines name l1 l2 = .ok t) :
    t.line2 = pyStrip l2 ∧
    pyFloat ("0." ++ pySlice (pyStrip l2) 26 33) = some t.eccentricity := by
  unfold parse_lines at h
  simp only [] at h
  split at h
  · simp [throw, throwThe, MonadExceptOf.throw] at h
  · obtain ⟨v1, h1, h⟩ := req_bind_ok h
    obtain ⟨v2, h2, h⟩ := reqIdx_bind_ok h
    obtain ⟨v3, h3, h⟩ := req_bind_ok h
    obtain ⟨v4, h4, h⟩ := req_bind_ok h
    obtain ⟨v5, h5, h⟩ := req_bind_ok h
    obtain ⟨v6, h6, h⟩ := req_bind_ok h
    obtain ⟨v7, h7, h⟩ := req_bind_ok h
    obtain ⟨v8, h8, h⟩ := req_bind_ok h
    obtain ⟨v9, h9, h⟩ := req_bind_ok h
    obtain ⟨v10, h10, h⟩ := req_bind_ok h
    obtain ⟨v11, h11, h⟩ := req_bind_ok h
    obtain ⟨v12, h12, h⟩ := req_bind_ok h
    obtain ⟨v13, h13, h⟩ := req_bind_ok h
    obtain ⟨v14, h14, h⟩ := req_bind_ok h
    obtain ⟨v15, h15, h⟩ := req_bind_ok h
    obtain ⟨v16, h16, h⟩ := req_bind_ok h
    simp only [pure, Except.pure, Except.ok.injEq] at h
    subst h
    exact ⟨rfl, h12 ▸ rfl⟩


/-- Full evaluation of `parse_lines` on the physically impossible line 2
(inclination column `"999.9999"`): the decode succeeds. -/
theorem bad_parse_eval :
    parse_lines "BAD" SAMPLE_LINE1 BAD_INCL_LINE2 = Except.ok
      { name := "BAD", norad_id := 25544, classification := 'U',
        launch_year := 98, launch_number := 67, piece := "A",
        epoch_year := 24,
        epoch_day := partsVal ⟨false, 1, 50000000, 8, 0⟩,
        mean_motion_dot := partsVal ⟨false, 0, 16717, 8, 0⟩,
        mean_motion_ddot := partsVal ⟨false, 0, 0, 5, 0⟩ * (10 : ℚ) ^ (-(0 : ℤ)),
        bstar := partsVal ⟨false, 0, 30000, 5, 0⟩ * (10 : ℚ) ^ (-(3 : ℤ)),
        inclination := partsVal ⟨false, 999, 9999, 4, 0⟩,
        raan := partsVal ⟨false, 247, 4627, 4, 0⟩,
        eccentricity := partsVal ⟨false, 0, 6703, 7, 0⟩,
        arg_perigee := partsVal ⟨false, 170, 5510, 4, 0⟩,
        mean_anomaly := partsVal ⟨false, 189, 5640, 4, 0⟩,
        mean_motion := partsVal ⟨false, 15, 49541000, 8, 0⟩,
        rev_number := 100,
        line1 := SAMPLE_LINE1, line2 := BAD_INCL_LINE2 } := by
  rfl

/-- C8 counterexample: `parse_lines` performs no range validation: a line
pair whose inclination column reads `"999.9999"` decodes successfully to a
record with inclination `999.9999`, far outside `[0, 180]`. -/
theorem claim_C8_counterexample :
    (parse_lines "BAD" SAMPLE_LINE1 BAD_INCL_LINE2).toOption.map
        TLEData.inclination = some 999.9999 ∧ ¬ ((999.9999 : ℚ) ≤ 180) := by
  constructor
  · rw [bad_parse_eval]
    simp only [Except.toOption, Option.map_some]
    norm_num [partsVal]
  · norm_num

/-- C8 (amended): decode enforces no physical-range invariant in general
(see the counterexample).  What does hold: whenever the eccentricity
column consists solely of decimal digits (as in the standard format), the
implied leading `"0."` puts the eccentricity in `[0, 1)`; and the bundled
sample TLE decodes with every listed field inside its physical range
(inclination in `[0, 180]`, RAAN, argument of perigee and mean anomaly in
`[0, 360)`, eccentricity in `[0, 1)`, mean motion positive). -/
theorem claim_C8_decode_ranges (name l1 l2 : String) (t : TLEData) :
    (parse_lines name l1 l2 = .ok t →
      (∀ c ∈ (pySlice (pyStrip l2) 26 33).toList, c.isDigit = true) →
      0 ≤ t.eccentricity ∧ t.eccentricity < 1) ∧
    (parse_lines "ISS (ZARYA)" SAMPLE_LINE1 SAMPLE_LINE2 = .ok t →
      (0 ≤ t.inclination ∧ t.inclination ≤ 180) ∧
      (0 ≤ t.raan ∧ t.raan < 360) ∧
      (0 ≤ t.eccentricity ∧ t.eccentricity < 1) ∧
      (0 ≤ t.arg_perigee ∧ t.arg_perigee < 360) ∧
      (0 ≤ t.mean_anomaly ∧ t.mean_anomaly < 360) ∧
      0 < t.mean_motion) := by
  constructor
  · intro h hdig
    obtain ⟨-, hecc⟩ := parse_lines_ok_ecc h
    rw [pyFloat_zero_dot _ hdig] at hecc
    have hv := Option.some.inj hecc
    rw [← hv]
    constructor
    · positivity
    · rw [div_lt_one (by positivity)]
      exact_mod_cast digitsToNat_lt _ hdig
  · intro h
    rw [sample_parse_eval] at h
    injection h with h
    subst h
    norm_num [partsVal]

/-- C8 witness: the sample record's eccentricity, decoded from a digit
column, lies in `[0, 1)`. -/
theorem claim_C8_decode_ranges_witness :
    0 ≤ partsVal ⟨false, 0, 6703, 7, 0⟩ ∧
    partsVal ⟨false, 0, 6703, 7, 0⟩ < 1 := by
  exact (claim_C8_decode_ranges "ISS (ZARYA)" SAMPLE_LINE1 SAMPLE_LINE2
      { name := "ISS (ZARYA)", norad_id := 25544, classification := 'U',
        launch_year := 98, launch_number := 67, piece := "A",
        epoch_year := 24,
        epoch_day := partsVal ⟨false, 1, 50000000, 8, 0⟩,
        mean_motion_dot := partsVal ⟨false, 0, 16717, 8, 0⟩,
        mean_motion_ddot := partsVal ⟨false, 0, 0, 5, 0⟩ * (10 : ℚ) ^ (-(0 : ℤ)),
        bstar := partsVal ⟨false, 0, 30000, 5, 0⟩ * (10 : ℚ) ^ (-(3 : ℤ)),
        inclination := partsVal ⟨false, 51, 6400, 4, 0⟩,
        raan := partsVal ⟨false, 247, 4627, 4, 0⟩,
        eccentricity := partsVal ⟨false, 0, 6703, 7, 0⟩,
        arg_perigee := partsVal ⟨false, 170, 5510, 4, 0⟩,
        mean_anomaly := partsVal ⟨false, 189, 5640, 4, 0⟩,
        mean_motion := partsVal ⟨false, 15, 49541000, 8, 0⟩,
        rev_number := 100,
        line1 := SAMPLE_LINE1, line2 := SAMPLE_LINE2 }).1 sample_parse_eval (by decide)

/-- C9 counterexample: at altitude exactly `-6371` the denominator of the
ratio is exactly zero, so the Python float division raises
`ZeroDivisionError` -- the function is not total and does raise. -/
theorem claim_C9_counterexample :
    calculate_coverage_radius (-6371) = CovResult.zeroDivisionError := by
  unfold calculate_coverage_radius
  norm_num

/-- C9 (amended): for altitudes above `-6371` the function is total and
never raises: it returns exactly `0.0` when the ratio is `>= 1` (there,
equivalently, altitude `<= 0`, including `coverage_radius 0 = 0.0`), and
`R_earth * arccos(R_earth / (R_earth + altitude))` for positive altitudes,
where it is strictly increasing. -/
theorem claim_C9_coverage (a b : ℝ) :
    calculate_coverage_radius 0 = .val 0 ∧
    (-6371 < a → a ≤ 0 → calculate_coverage_radius a = .val 0) ∧
    (0 < a → calculate_coverage_radius a =
      .val (6371 * Real.arccos (6371 / (6371 + a)))) ∧
    (0 < a → a < b →
      6371 * Real.arccos (6371 / (6371 + a)) <
        6371 * Real.arccos (6371 / (6371 + b))) := by
  refine ⟨?_, fun h1 h2 => ?_, fun h => ?_, fun ha hab => ?_⟩
  · unfold calculate_coverage_radius
    norm_num
  · have hd : (0 : ℝ) < 6371 + a := by linarith
    have hne : (6371 : ℝ) + a ≠ 0 := ne_of_gt hd
    have hr : 1 ≤ 6371 / (6371 + a) := (one_le_div hd).mpr (by linarith)
    simp only [calculate_coverage_radius, if_neg hne, if_pos hr]
  · have hd : (0 : ℝ) < 6371 + a := by linarith
    have hne : (6371 : ℝ) + a ≠ 0 := ne_of_gt hd
    have hr1 : ¬ (1 ≤ 6371 / (6371 + a)) :=
      not_le.mpr ((div_lt_one hd).mpr (by linarith))
    have hr0 : (0 : ℝ) ≤ 6371 / (6371 + a) := by positivity
    have hr2 : ¬ (6371 / (6371 + a) < (-1 : ℝ)) := not_lt.mpr (by linarith)
    simp only [calculate_coverage_radius, if_neg hne, if_neg hr1, if_neg hr2]
  · have hda : (0 : ℝ) < 6371 + a := by linarith
    have hdb : (0 : ℝ) < 6371 + b := by linarith
    have hxy : 6371 / (6371 + b) < 6371 / (6371 + a) :=
      div_lt_div_of_pos_left (by norm_num) hda (by linarith)
    have hx0 : (0 : ℝ) < 6371 / (6371 + b) := div_pos (by norm_num) hdb
    have hy1 : 6371 / (6371 + a) < 1 := (div_lt_one hda).mpr (by linarith)
    have harc : Real.arccos (6371 / (6371 + a)) <
        Real.arccos (6371 / (6371 + b)) :=
      Real.strictAntiOn_arccos ⟨by linarith, by linarith⟩
        ⟨by linarith, by linarith⟩ hxy
    exact mul_lt_mul_of_pos_left harc (by norm_num)

/-- C9 witness: return value `0.0` at altitude `-1`, the arccos formula at
altitude `1`, and strict growth from altitude `1` to `2`. -/
theorem claim_C9_coverage_witness :
    calculate_coverage_radius (-1) = .val 0 ∧
    calculate_coverage_radius 1 =
      .val (6371 * Real.arccos (6371 / (6371 + 1))) ∧
    6371 * Real.arccos (6371 / (6371 + 1)) <
      6371 * Real.arccos (6371 / (6371 + 2)) :=
  ⟨(claim_C9_coverage (-1) 2).2.1 (by norm_num) (by norm_num),
   (claim_C9_coverage 1 2).2.2.1 (by norm_num),
   (claim_C9_coverage 1 2).2.2.2 (by norm_num) (by norm_num)⟩

/-- C7: decoding the fixed sample TLE pair succeeds and yields catalog id
25544, inclination 51.64, eccentricity 0.0006703, mean motion 15.49541. -/
theorem claim_C7_sample_roundtrip :
    (parse_lines "ISS (ZARYA)" SAMPLE_LINE1 SAMPLE_LINE2).toOption.map
        (fun t => (t.norad_id, t.inclination, t.eccentricity, t.mean_motion)) =
      some (25544, 51.64, 0.0006703, 15.49541) := by
  rw [sample_parse_eval]
  simp only [Except.toOption, Option.map_some]
  norm_num [partsVal]

end SatTrack
